import Mathlib

/-!
Shallow embedding of the EduSloth client-side logic that the specification
describes: the transcription and AI-generation status pollers (Zustand
stores `transcriptionStore` / `aiGenerationStore`) and the local-storage
backed list components (`Todo.tsx`, `StudyPlan`, `FlashcardSet`).

Modelling conventions:
* Machine state updates (`set({...})`) become explicit record updates.
* A network call's outcome is an explicit input (`FetchOutcome` /
  `Except String`): `ok` for a 2xx JSON payload, `notFound` for a 404,
  `err` for every other failure (the string is the surfaced message).
* JavaScript timers are idealised as instantaneous callbacks on a discrete
  millisecond clock: the interval registered by a poll session ticks at
  times `intervalMs * k` (k = 1, 2, ...) and the safety timeout clears the
  interval at its deadline, so a tick due exactly at the deadline no longer
  fires; the initial `checkStatus` call runs at time 0 before any timer
  exists.
-/

/-- Job status enumeration shared by transcriptions and generated content
(`status: "pending" | "processing" | "completed" | "failed"`). -/
inductive JobStatus where
  | pending
  | processing
  | completed
  | failed
deriving DecidableEq, Repr

/-- Source `TranscriptionSegment` from `transcriptionStore` (`start`/`end` renamed
`startT`/`endT`: `end` is a Lean keyword). -/
structure TranscriptionSegment where
  startT : Int
  endT : Int
  text : String
deriving DecidableEq, Repr

/-- The `Transcription` record returned by `GET /transcription/{id}`. -/
structure Transcription where
  id : String
  content_id : String
  status : JobStatus
  text : Option String
  segments : Option (List TranscriptionSegment)
  created_at : String
  updated_at : Option String
  error : Option String
deriving DecidableEq, Repr

/-- Source `FlashCard` payload item of a generated content record. -/
structure FlashCard where
  question : String
  answer : String
deriving DecidableEq, Repr

/-- Source `QuizQuestion` payload item of a generated content record. -/
structure QuizQuestion where
  question : String
  options : List String
  correct_option : Int
  explanation : Option String
deriving DecidableEq, Repr

/-- Source `MindMapNode` payload item of a generated content record. -/
structure MindMapNode where
  id : String
  label : String
  children : List String
deriving DecidableEq, Repr

/-- Generation type tag (`"summary" | "flashcards" | "quiz" | "mindmap"`). -/
inductive GenType where
  | summary
  | flashcards
  | quiz
  | mindmap
deriving DecidableEq, Repr

/-- The `GeneratedContent` record returned by `GET /ai/generated/{id}/{type}`. -/
structure GeneratedContent where
  id : String
  content_id : String
  type : GenType
  status : JobStatus
  created_at : String
  updated_at : Option String
  summary : Option String
  flashcards : Option (List FlashCard)
  quiz : Option (List QuizQuestion)
  mindmap : Option (List (String × MindMapNode))
  error : Option String
deriving DecidableEq, Repr

/-- Outcome of one HTTP status fetch: a parsed payload, a 404, or any other
failure carrying the message the catch block would surface. -/
inductive FetchOutcome (α : Type) where
  | ok (payload : α)
  | notFound
  | err (msg : String)
deriving DecidableEq, Repr

namespace TranscriptionStore

/-- Observable state of `useTranscriptionStore`. -/
structure State where
  currentTranscription : Option Transcription
  isLoading : Bool
  error : Option String
deriving DecidableEq, Repr

/-- The store's initial state. -/
def initialState : State :=
  { currentTranscription := none, isLoading := false, error := none }

/-- Source `fetchTranscription`: sets `isLoading`/clears `error`, awaits
`getTranscription`, then on success stores the record; a 404 clears the
current record without an error; any other failure records the error and
leaves `currentTranscription` untouched.  Returns the updated state and the
value the JS function returns (`transcription` or `null`). -/
def fetchTranscription (s : State) (o : FetchOutcome Transcription) :
    State × Option Transcription :=
  match o with
  | .ok t =>
      ({ s with currentTranscription := some t, isLoading := false,
                error := none }, some t)
  | .notFound =>
      ({ s with currentTranscription := none, isLoading := false,
                error := none }, none)
  | .err msg =>
      ({ s with isLoading := false, error := some msg }, none)

/-- Source `startNewTranscription`: POSTs the start request, then fetches the
initial status with `getTranscription`; both calls share one catch block,
whose message is the `err` payload. -/
def startNewTranscription (s : State) (startRes : Except String Unit)
    (fetchRes : Except String Transcription) : State × Bool :=
  match startRes with
  | .error e => ({ s with isLoading := false, error := some e }, false)
  | .ok _ =>
      match fetchRes with
      | .ok t =>
          ({ s with currentTranscription := some t, isLoading := false,
                    error := none }, true)
      | .error e => ({ s with isLoading := false, error := some e }, false)

end TranscriptionStore

namespace AIGenerationStore

/-- Observable state of `useAIGenerationStore`. -/
structure State where
  generatedContents : List GeneratedContent
  currentGeneration : Option GeneratedContent
  isLoading : Bool
  error : Option String
deriving DecidableEq, Repr

/-- The store's initial state. -/
def initialState : State :=
  { generatedContents := [], currentGeneration := none, isLoading := false,
    error := none }

/-- Source `startGeneration` action of the store: POSTs the start request and
returns `true` on success.  Note it performs no status fetch: on success
the only state change is the initial `set({isLoading: true, error: null})`. -/
def startGeneration (s : State) (startRes : Except String Unit) :
    State × Bool :=
  match startRes with
  | .ok _ => ({ s with isLoading := true, error := none }, true)
  | .error e => ({ s with isLoading := false, error := some e }, false)

/-- Source `fetchSpecificGeneration`: same shape as
`TranscriptionStore.fetchTranscription`, targeting `currentGeneration`. -/
def fetchSpecificGeneration (s : State) (o : FetchOutcome GeneratedContent) :
    State × Option GeneratedContent :=
  match o with
  | .ok g =>
      ({ s with currentGeneration := some g, isLoading := false,
                error := none }, some g)
  | .notFound =>
      ({ s with currentGeneration := none, isLoading := false,
                error := none }, none)
  | .err msg =>
      ({ s with isLoading := false, error := some msg }, none)

end AIGenerationStore

/-! ## The poll session

`pollTranscriptionStatus` and `pollGenerationStatus` share one shape:

    checkStatus  : fetch; continue iff the fetch returned a record whose
                   status is "processing" or "pending"
    initial call : checkStatus at time 0
    interval     : if the initial call said continue, ticks every
                   `intervalMs`, each tick runs checkStatus and clears the
                   interval when it says stop
    safety       : a timeout clears the interval 10 minutes after it was
                   created

The environment `env : Nat → FetchOutcome α` gives the outcome of the n-th
status fetch (n = 0 is the initial check, n = k the tick at `intervalMs*k`). -/

/-- The hard-coded safety window `10 * 60 * 1000` ms. -/
def pollWindowMs : Nat := 10 * 60 * 1000

/-- Source `checkStatus`'s boolean: the fetch returned a record (not `null`) and its
status is `"processing"` or `"pending"`. -/
def checkStatus {α : Type} (statusOf : α → JobStatus) (o : FetchOutcome α) :
    Bool :=
  match o with
  | .ok x => statusOf x == .processing || statusOf x == .pending
  | .notFound => false
  | .err _ => false

/-- Source `continuesThrough sc k`: every check 0..k said "continue", i.e. the
interval is still live after tick `k`. -/
def continuesThrough (sc : Nat → Bool) : Nat → Bool
  | 0 => sc 0
  | k + 1 => continuesThrough sc k && sc (k + 1)

/-- Source `fetchOccurs sc intervalMs k`: the poll session performs its `k`-th
status fetch.  The initial check (k = 0) always runs; tick `k ≥ 1` runs iff
every earlier check said continue and the tick time `intervalMs * k` is
strictly before the safety deadline (the safety timeout clears the interval
at the deadline, so the tick due exactly there no longer fires). -/
def fetchOccurs (sc : Nat → Bool) (intervalMs : Nat) : Nat → Bool
  | 0 => true
  | k + 1 => continuesThrough sc k && decide (intervalMs * (k + 1) < pollWindowMs)

/-- The continue-test of `pollTranscriptionStatus` for fetch environment
`env`. -/
def transContinue (env : Nat → FetchOutcome Transcription) (k : Nat) : Bool :=
  checkStatus Transcription.status (env k)

/-- The continue-test of `pollGenerationStatus` for fetch environment
`env`. -/
def genContinue (env : Nat → FetchOutcome GeneratedContent) (k : Nat) : Bool :=
  checkStatus GeneratedContent.status (env k)

/-- The outcome is a record in a terminal (`completed`/`failed`) status. -/
def terminalOutcome {α : Type} (statusOf : α → JobStatus)
    (o : FetchOutcome α) : Bool :=
  match o with
  | .ok x => statusOf x == .completed || statusOf x == .failed
  | .notFound => false
  | .err _ => false

/-- A concrete pending transcription, used to instantiate environments. -/
def pendingTranscription : Transcription :=
  { id := "t1", content_id := "c1", status := .pending, text := none,
    segments := none, created_at := "2024-01-01T00:00:00Z",
    updated_at := none, error := none }

/-- A concrete pending quiz generation, used to instantiate environments. -/
def pendingGeneration : GeneratedContent :=
  { id := "g1", content_id := "c2", type := .quiz, status := .pending,
    created_at := "2024-01-01T00:00:00Z", updated_at := none,
    summary := none, flashcards := none, quiz := none, mindmap := none,
    error := none }

/-! ## Local-storage backed list components -/

namespace TodoComponent

/-- The `Todo` record of `Todo.tsx`.  `createdAt` holds the ISO string the
`Date` serialises to (`Date.now()` of the creating click, as a string). -/
structure Todo where
  id : String
  text : String
  completed : Bool
  createdAt : String
deriving DecidableEq, Repr

/-- Source `handleAddTodo`: if the input is non-blank after trimming, append a new
record with `id = Date.now().toString()`; otherwise no change.  `now` is the
`Date.now()` millisecond value of the click. -/
def handleAddTodo (todos : List Todo) (now : Nat) (newTodo : String) :
    List Todo :=
  if newTodo.trim ≠ "" then
    todos ++ [{ id := toString now, text := newTodo.trim, completed := false,
                createdAt := toString now }]
  else todos

/-- Source `toggleComplete`: flip `completed` on every record whose id matches. -/
def toggleComplete (todos : List Todo) (id : String) : List Todo :=
  todos.map fun todo =>
    if todo.id = id then { todo with completed := !todo.completed } else todo

/-- Source `deleteTodo`: keep the records whose id differs. -/
def deleteTodo (todos : List Todo) (id : String) : List Todo :=
  todos.filter fun todo => todo.id ≠ id

/-- Source `clearCompleted`: keep the uncompleted records. -/
def clearCompleted (todos : List Todo) : List Todo :=
  todos.filter fun todo => !todo.completed

/-- One user mutation of the todo list. -/
inductive Op where
  | add (now : Nat) (text : String)
  | toggle (id : String)
  | del (id : String)
  | clear
deriving DecidableEq, Repr

/-- Apply one mutation. -/
def applyOp (todos : List Todo) : Op → List Todo
  | .add now text => handleAddTodo todos now text
  | .toggle id => toggleComplete todos id
  | .del id => deleteTodo todos id
  | .clear => clearCompleted todos

/-- Run a sequence of mutations from the mount state (empty list). -/
def runOps (ops : List Op) : List Todo :=
  ops.foldl applyOp []

/-- The `Date.now()` values of the `add` operations of a sequence. -/
def addTimes : List Op → List Nat
  | [] => []
  | .add now _ :: ops => now :: addTimes ops
  | _ :: ops => addTimes ops

end TodoComponent

namespace StudyPlanComponent

/-- Goal priority (`'low' | 'medium' | 'high'`). -/
inductive Priority where
  | low
  | medium
  | high
deriving DecidableEq, Repr

/-- The `StudyGoal` record of the StudyPlan component; `targetDate` holds
the serialised date string when present. -/
structure StudyGoal where
  id : String
  title : String
  description : Option String
  completed : Bool
  targetDate : Option String
  priority : Priority
deriving DecidableEq, Repr

/-- The `StudySession` record; `date` holds the serialised date string. -/
structure StudySession where
  id : String
  goalId : String
  date : String
  duration : Int
  notes : Option String
deriving DecidableEq, Repr

/-- Source `handleAddGoal`: guarded by a non-blank trimmed title; appends a goal
with `id = Date.now().toString()`, trimmed title/description, `completed =
false`. -/
def handleAddGoal (goals : List StudyGoal) (now : Nat) (title : String)
    (description : Option String) (targetDate : Option String)
    (priority : Priority) : List StudyGoal :=
  if title.trim ≠ "" then
    goals ++ [{ id := toString now, title := title.trim,
                description := description.map String.trim,
                completed := false, targetDate := targetDate,
                priority := priority }]
  else goals

/-- Source `handleAddSession`: guarded by the JS truthiness of `goalId` and
`duration` (non-empty string, non-zero number); appends a session with
`id = Date.now().toString()` and trimmed notes. -/
def handleAddSession (sessions : List StudySession) (now : Nat)
    (goalId : String) (date : String) (duration : Int)
    (notes : Option String) : List StudySession :=
  if goalId ≠ "" ∧ duration ≠ 0 then
    sessions ++ [{ id := toString now, goalId := goalId, date := date,
                   duration := duration, notes := notes.map String.trim }]
  else sessions

/-- Source `toggleGoalComplete`: flip `completed` on every goal whose id matches. -/
def toggleGoalComplete (goals : List StudyGoal) (id : String) :
    List StudyGoal :=
  goals.map fun goal =>
    if goal.id = id then { goal with completed := !goal.completed } else goal

/-- Source `deleteGoal`: drop the goal with that id and every session whose
`goalId` references it (the cascade). -/
def deleteGoal (goals : List StudyGoal) (sessions : List StudySession)
    (id : String) : List StudyGoal × List StudySession :=
  (goals.filter fun goal => goal.id ≠ id,
   sessions.filter fun session => session.goalId ≠ id)

/-- Source `deleteSession`: drop the session with that id. -/
def deleteSession (sessions : List StudySession) (id : String) :
    List StudySession :=
  sessions.filter fun session => session.id ≠ id

/-- Source `saveEditGoal`: when an edit is active and the new title is non-blank,
rewrite title/description/priority/targetDate of the goal being edited. -/
def saveEditGoal (goals : List StudyGoal) (editingGoalId : Option String)
    (title : String) (description : Option String) (priority : Priority)
    (targetDate : Option String) : List StudyGoal :=
  match editingGoalId with
  | none => goals
  | some eid =>
      if title.trim ≠ "" then
        goals.map fun goal =>
          if goal.id = eid then
            { goal with title := title.trim, description := description,
                        priority := priority, targetDate := targetDate }
          else goal
      else goals

/-- One user mutation of the study plan (goals and sessions together). -/
inductive Op where
  | addGoal (now : Nat) (title : String) (description : Option String)
      (targetDate : Option String) (priority : Priority)
  | addSession (now : Nat) (goalId : String) (date : String)
      (duration : Int) (notes : Option String)
  | toggleGoal (id : String)
  | delGoal (id : String)
  | delSession (id : String)
  | editGoal (editingGoalId : Option String) (title : String)
      (description : Option String) (priority : Priority)
      (targetDate : Option String)
deriving DecidableEq, Repr

/-- Apply one mutation to the `(goals, sessions)` pair. -/
def applyOp (st : List StudyGoal × List StudySession) (op : Op) :
    List StudyGoal × List StudySession :=
  match op with
  | .addGoal now title d td p =>
      (handleAddGoal st.1 now title d td p, st.2)
  | .addSession now gid date dur notes =>
      (st.1, handleAddSession st.2 now gid date dur notes)
  | .toggleGoal id => (toggleGoalComplete st.1 id, st.2)
  | .delGoal id => deleteGoal st.1 st.2 id
  | .delSession id => (st.1, deleteSession st.2 id)
  | .editGoal eid title d p td => (saveEditGoal st.1 eid title d p td, st.2)

/-- Run a sequence of mutations from the mount state (both lists empty). -/
def runOps (ops : List Op) : List StudyGoal × List StudySession :=
  ops.foldl applyOp ([], [])

/-- The `Date.now()` values of the `addGoal` operations of a sequence. -/
def goalAddTimes : List Op → List Nat
  | [] => []
  | .addGoal now _ _ _ _ :: ops => now :: goalAddTimes ops
  | _ :: ops => goalAddTimes ops

/-- The `Date.now()` values of the `addSession` operations of a sequence. -/
def sessionAddTimes : List Op → List Nat
  | [] => []
  | .addSession now _ _ _ _ :: ops => now :: sessionAddTimes ops
  | _ :: ops => sessionAddTimes ops

end StudyPlanComponent

namespace FlashcardComponent

/-- Card confidence (`'low' | 'medium' | 'high'`). -/
inductive Confidence where
  | low
  | medium
  | high
deriving DecidableEq, Repr

/-- The `Flashcard` record of `FlashcardSet`; `lastReviewed` holds the
serialised date string when present. -/
structure Flashcard where
  id : String
  question : String
  answer : String
  lastReviewed : Option String
  confidence : Confidence
deriving DecidableEq, Repr

/-- Source `handleAddCard`: guarded by non-blank trimmed question and answer.
While editing (`editingCardId` set) it rewrites that card's question and
answer; otherwise it appends a new card with `id = Date.now().toString()`
and `confidence = medium`. -/
def handleAddCard (cards : List Flashcard) (now : Nat)
    (editingCardId : Option String) (question answer : String) :
    List Flashcard :=
  if question.trim ≠ "" ∧ answer.trim ≠ "" then
    match editingCardId with
    | some eid =>
        cards.map fun card =>
          if card.id = eid then
            { card with question := question.trim, answer := answer.trim }
          else card
    | none =>
        cards ++ [{ id := toString now, question := question.trim,
                    answer := answer.trim, lastReviewed := none,
                    confidence := .medium }]
  else cards

/-- Source `deleteCard`: keep the cards whose id differs. -/
def deleteCard (cards : List Flashcard) (id : String) : List Flashcard :=
  cards.filter fun card => card.id ≠ id

/-- Index-aware map (the `cards.map((card, index) => ...)` callback shape). -/
def mapWithIdx (f : Nat → Flashcard → Flashcard) :
    Nat → List Flashcard → List Flashcard
  | _, [] => []
  | i, c :: cs => f i c :: mapWithIdx f (i + 1) cs

/-- Source `updateConfidence`: rewrite confidence and `lastReviewed` of the card at
the current study index. -/
def updateConfidence (cards : List Flashcard) (currentCard : Option Nat)
    (confidence : Confidence) (nowIso : String) : List Flashcard :=
  match currentCard with
  | none => cards
  | some idx =>
      mapWithIdx
        (fun i card =>
          if i = idx then
            { card with confidence := confidence,
                        lastReviewed := some nowIso }
          else card)
        0 cards

/-- One user mutation of the card list (shuffle is excluded: it only
permutes, driven by `Math.random`, and creates no record). -/
inductive Op where
  | addCard (now : Nat) (editingCardId : Option String)
      (question answer : String)
  | delCard (id : String)
  | confidence (currentCard : Option Nat) (c : Confidence) (nowIso : String)
deriving DecidableEq, Repr

/-- Apply one mutation. -/
def applyOp (cards : List Flashcard) : Op → List Flashcard
  | .addCard now eid q a => handleAddCard cards now eid q a
  | .delCard id => deleteCard cards id
  | .confidence cur c iso => updateConfidence cards cur c iso

/-- Run a sequence of mutations from the mount state (empty list). -/
def runOps (ops : List Op) : List Flashcard :=
  ops.foldl applyOp []

/-- The `Date.now()` values of the non-editing `addCard` operations. -/
def addTimes : List Op → List Nat
  | [] => []
  | .addCard now none _ _ :: ops => now :: addTimes ops
  | _ :: ops => addTimes ops

end FlashcardComponent

/-! ## JSON persistence

`localStorage` holds `JSON.stringify(collection)`; loading runs `JSON.parse`.
The stringify/parse pair is modelled at the level of JSON value trees: a
slot holds a `Json` value, `stringify` is the encoding of records into that
tree (`undefined` optional fields are omitted, as `JSON.stringify` does),
and `parse` reads the fields back by name. -/

/-- A JSON value. -/
inductive Json where
  | null
  | bool (b : Bool)
  | num (n : Int)
  | str (s : String)
  | arr (elems : List Json)
  | obj (fields : List (String × Json))

namespace Json

/-- Look a field up in an object (JS property access on a parsed object). -/
def field : Json → String → Option Json
  | .obj fs, key => lookupField fs key
  | _, _ => none
where
  /-- First-match lookup in the field list. -/
  lookupField : List (String × Json) → String → Option Json
    | [], _ => none
    | (k, v) :: fs, key => if k = key then some v else lookupField fs key

/-- Read a JSON string. -/
def asStr : Json → Option String
  | .str s => some s
  | _ => none

/-- Read a JSON boolean. -/
def asBool : Json → Option Bool
  | .bool b => some b
  | _ => none

/-- Read a JSON number. -/
def asNum : Json → Option Int
  | .num n => some n
  | _ => none

/-- Read an optional string field: missing means `undefined` (→ `none`). -/
def optStr (j : Json) (key : String) : Option (Option String) :=
  match j.field key with
  | none => some none
  | some v => (asStr v).map some

end Json

/-- Decode every element of a JSON array, failing if any element fails
(element order is preserved). -/
def decodeElems {α : Type} (dec : Json → Option α) : List Json → Option (List α)
  | [] => some []
  | j :: js =>
      match dec j, decodeElems dec js with
      | some x, some xs => some (x :: xs)
      | _, _ => none

namespace TodoComponent

/-- Encoding of one todo into the JSON written by `JSON.stringify`. -/
def encTodo (t : Todo) : Json :=
  .obj [("id", .str t.id), ("text", .str t.text),
        ("completed", .bool t.completed), ("createdAt", .str t.createdAt)]

/-- Encoding of the whole list (the value written to the slot). -/
def encTodoList (ts : List Todo) : Json :=
  .arr (ts.map encTodo)

/-- Decoding of one todo from a parsed JSON object. -/
def decTodo (j : Json) : Option Todo := do
  let id ← (j.field "id").bind Json.asStr
  let text ← (j.field "text").bind Json.asStr
  let completed ← (j.field "completed").bind Json.asBool
  let createdAt ← (j.field "createdAt").bind Json.asStr
  pure { id := id, text := text, completed := completed,
         createdAt := createdAt }

/-- Decoding of the persisted list. -/
def decTodoList (j : Json) : Option (List Todo) :=
  match j with
  | .arr elems => decodeElems decTodo elems
  | _ => none

/-- The save effect of `Todo.tsx`: it writes `JSON.stringify(todos)` to the
slot only when `todos.length > 0`; an empty list leaves the slot as it was. -/
def saveTodos (slot : Option Json) (todos : List Todo) : Option Json :=
  if todos.length > 0 then some (encTodoList todos) else slot

end TodoComponent

namespace StudyPlanComponent

/-- Encoding of one goal; `undefined` optional fields are omitted, matching
`JSON.stringify`. -/
def encGoal (g : StudyGoal) : Json :=
  .obj ([("id", .str g.id), ("title", .str g.title)]
    ++ (match g.description with
        | some d => [("description", .str d)]
        | none => [])
    ++ [("completed", .bool g.completed)]
    ++ (match g.targetDate with
        | some d => [("targetDate", .str d)]
        | none => [])
    ++ [("priority", .str (match g.priority with
          | .low => "low"
          | .medium => "medium"
          | .high => "high"))])

/-- Encoding of the goals list. -/
def encGoalList (gs : List StudyGoal) : Json :=
  .arr (gs.map encGoal)

/-- Decoding of one goal from a parsed JSON object. -/
def decGoal (j : Json) : Option StudyGoal := do
  let id ← (j.field "id").bind Json.asStr
  let title ← (j.field "title").bind Json.asStr
  let description ← j.optStr "description"
  let completed ← (j.field "completed").bind Json.asBool
  let targetDate ← j.optStr "targetDate"
  let priority ← (j.field "priority").bind Json.asStr
  let priority ← match priority with
    | "low" => some Priority.low
    | "medium" => some Priority.medium
    | "high" => some Priority.high
    | _ => none
  pure { id := id, title := title, description := description,
         completed := completed, targetDate := targetDate,
         priority := priority }

/-- Decoding of the persisted goals list. -/
def decGoalList (j : Json) : Option (List StudyGoal) :=
  match j with
  | .arr elems => decodeElems decGoal elems
  | _ => none

/-- Encoding of one session. -/
def encSession (s : StudySession) : Json :=
  .obj ([("id", .str s.id), ("goalId", .str s.goalId),
         ("date", .str s.date), ("duration", .num s.duration)]
    ++ (match s.notes with
        | some n => [("notes", .str n)]
        | none => []))

/-- Encoding of the sessions list. -/
def encSessionList (ss : List StudySession) : Json :=
  .arr (ss.map encSession)

/-- Decoding of one session from a parsed JSON object. -/
def decSession (j : Json) : Option StudySession := do
  let id ← (j.field "id").bind Json.asStr
  let goalId ← (j.field "goalId").bind Json.asStr
  let date ← (j.field "date").bind Json.asStr
  let duration ← (j.field "duration").bind Json.asNum
  let notes ← j.optStr "notes"
  pure { id := id, goalId := goalId, date := date, duration := duration,
         notes := notes }

/-- Decoding of the persisted sessions list. -/
def decSessionList (j : Json) : Option (List StudySession) :=
  match j with
  | .arr elems => decodeElems decSession elems
  | _ => none

/-- The save effect of the StudyPlan goals slot: unconditional rewrite. -/
def saveGoals (_slot : Option Json) (goals : List StudyGoal) : Option Json :=
  some (encGoalList goals)

/-- The save effect of the StudyPlan sessions slot: unconditional rewrite. -/
def saveSessions (_slot : Option Json) (sessions : List StudySession) :
    Option Json :=
  some (encSessionList sessions)

end StudyPlanComponent

namespace FlashcardComponent

/-- Encoding of one card; the `undefined` `lastReviewed` is omitted. -/
def encCard (c : Flashcard) : Json :=
  .obj ([("id", .str c.id), ("question", .str c.question),
         ("answer", .str c.answer)]
    ++ (match c.lastReviewed with
        | some d => [("lastReviewed", .str d)]
        | none => [])
    ++ [("confidence", .str (match c.confidence with
          | .low => "low"
          | .medium => "medium"
          | .high => "high"))])

/-- Encoding of the cards list. -/
def encCardList (cs : List Flashcard) : Json :=
  .arr (cs.map encCard)

/-- Decoding of one card from a parsed JSON object. -/
def decCard (j : Json) : Option Flashcard := do
  let id ← (j.field "id").bind Json.asStr
  let question ← (j.field "question").bind Json.asStr
  let answer ← (j.field "answer").bind Json.asStr
  let lastReviewed ← j.optStr "lastReviewed"
  let confidence ← (j.field "confidence").bind Json.asStr
  let confidence ← match confidence with
    | "low" => some Confidence.low
    | "medium" => some Confidence.medium
    | "high" => some Confidence.high
    | _ => none
  pure { id := id, question := question, answer := answer,
         lastReviewed := lastReviewed, confidence := confidence }

/-- Decoding of the persisted cards list. -/
def decCardList (j : Json) : Option (List Flashcard) :=
  match j with
  | .arr elems => decodeElems decCard elems
  | _ => none

/-- The save effect of `FlashcardSet`: like `Todo.tsx`, it writes only when
`cards.length > 0`. -/
def saveCards (slot : Option Json) (cards : List Flashcard) : Option Json :=
  if cards.length > 0 then some (encCardList cards) else slot

end FlashcardComponent

/-! ## Concrete environments used to instantiate the poll-session claims -/

/-- An environment where every fetch returns the pending transcription. -/
def transPendingEnv : Nat → FetchOutcome Transcription :=
  fun _ => .ok pendingTranscription

/-- An environment where every fetch returns the pending generation. -/
def genPendingEnv : Nat → FetchOutcome GeneratedContent :=
  fun _ => .ok pendingGeneration

/-- The completed counterpart of `pendingTranscription`. -/
def completedTranscription : Transcription :=
  { pendingTranscription with status := .completed, text := some "hello" }

/-- The completed counterpart of `pendingGeneration`. -/
def completedGeneration : GeneratedContent :=
  { pendingGeneration with status := .completed }

/-- Pending on the initial check, completed from the first tick on. -/
def transTerminalEnv : Nat → FetchOutcome Transcription :=
  fun n => if n = 0 then .ok pendingTranscription else .ok completedTranscription

/-- Pending on the initial check, completed from the first tick on. -/
def genTerminalEnv : Nat → FetchOutcome GeneratedContent :=
  fun n => if n = 0 then .ok pendingGeneration else .ok completedGeneration

/-- Pending on the initial check; every later fetch fails with a non-404
error. -/
def transErrEnv : Nat → FetchOutcome Transcription :=
  fun n => if n = 0 then .ok pendingTranscription
           else .err "Failed to fetch transcription"

/-- Pending on the initial check; every later fetch fails with a non-404
error. -/
def genErrEnv : Nat → FetchOutcome GeneratedContent :=
  fun n => if n = 0 then .ok pendingGeneration
           else .err "Failed to fetch generation"

/-! ## Poll-session lemmas -/

/-- If every check says continue, the interval is live after every tick. -/
theorem continuesThrough_all (sc : Nat → Bool) (h : ∀ n, sc n = true) :
    ∀ k, continuesThrough sc k = true := by
  intro k
  induction k with
  | zero => exact h 0
  | succ k ih => simp [continuesThrough, ih, h]

/-- A live interval after tick `k` means every check up to `k` said
continue. -/
theorem check_true_of_continuesThrough (sc : Nat → Bool) :
    ∀ {k j : Nat}, j ≤ k → continuesThrough sc k = true → sc j = true := by
  intro k
  induction k with
  | zero =>
      intro j hj h
      have : j = 0 := Nat.le_zero.mp hj
      subst this
      exact h
  | succ k ih =>
      intro j hj h
      have h' : continuesThrough sc k = true ∧ sc (k + 1) = true := by
        simpa [continuesThrough, Bool.and_eq_true] using h
      rcases Nat.le_succ_iff.mp hj with hjk | hje
      · exact ih hjk h'.1
      · subst hje
        exact h'.2

/-- Every status fetch of a poll session happens no later than the safety
window. -/
theorem fetchOccurs_time_le (sc : Nat → Bool) (i : Nat) :
    ∀ k, fetchOccurs sc i k = true → i * k ≤ pollWindowMs := by
  intro k h
  cases k with
  | zero => simp
  | succ k =>
      have h' : continuesThrough sc k = true ∧ i * (k + 1) < pollWindowMs := by
        simpa [fetchOccurs, Bool.and_eq_true] using h
      exact Nat.le_of_lt h'.2

/-- Once some check says stop, no later fetch occurs. -/
theorem fetchOccurs_false_of_stop (sc : Nat → Bool) (i : Nat) {j k : Nat}
    (hsc : sc j = false) (hjk : j < k) : fetchOccurs sc i k = false := by
  cases k with
  | zero => exact absurd hjk (Nat.not_lt_zero j)
  | succ k =>
      have hj : j ≤ k := Nat.lt_succ_iff.mp hjk
      have hct : continuesThrough sc k = false := by
        cases hcase : continuesThrough sc k
        · rfl
        · have := check_true_of_continuesThrough sc hj hcase
          rw [this] at hsc
          exact absurd hsc (by simp)
      rw [fetchOccurs, hct, Bool.false_and]

/-- A terminal (`completed`/`failed`) outcome makes `checkStatus` say stop. -/
theorem checkStatus_false_of_terminal {α : Type} (statusOf : α → JobStatus)
    (o : FetchOutcome α) (h : terminalOutcome statusOf o = true) :
    checkStatus statusOf o = false := by
  cases o with
  | ok x =>
      cases hs : statusOf x <;>
        simp [terminalOutcome, checkStatus, hs] at h ⊢
  | notFound => rfl
  | err m => rfl

/-- If check `j` says stop, every fetch happens within one tick of tick `j`. -/
theorem fetch_time_bound_of_stop (sc : Nat → Bool) (i j k : Nat)
    (hscj : sc j = false) (hk : fetchOccurs sc i k = true) :
    i * k ≤ i * j + i := by
  by_cases hkj : k ≤ j
  · calc i * k ≤ i * j := Nat.mul_le_mul_left i hkj
      _ ≤ i * j + i := Nat.le_add_right _ _
  · have : fetchOccurs sc i k = false :=
      fetchOccurs_false_of_stop sc i hscj (Nat.lt_of_not_le hkj)
    rw [hk] at this
    exact absurd this (by simp)

/-- With a 5000 ms interval and checks that always say continue, fetch `k`
occurs exactly when `k < 120`. -/
theorem fetchOccurs_pending_iff (sc : Nat → Bool) (hsc : ∀ n, sc n = true)
    (k : Nat) : (fetchOccurs sc 5000 k = true ↔ k < 120) := by
  cases k with
  | zero => simp [fetchOccurs]
  | succ k =>
      rw [show fetchOccurs sc 5000 (k + 1)
            = (continuesThrough sc k && decide (5000 * (k + 1) < pollWindowMs))
          from rfl]
      rw [continuesThrough_all sc hsc k]
      simp [pollWindowMs]
      omega

/-! ## Claims about the pollers -/

/-- C1 counterexample: the claim says a status fetch failing for a reason
other than not-found keeps the polling loop alive.  In the code,
`checkStatus` returns `false` whenever `fetchTranscription` returns `null`,
which it does on every failure including non-404 ones, so the interval is
cleared.  Concretely: the initial check sees a pending job, the first tick's
fetch fails with a non-404 error that is neither a not-found nor a terminal
status, yet the second tick's fetch (due at 10000 ms, well inside the
window) never happens. -/
theorem c1_poll_alive_on_error_cex :
    transErrEnv 1 = FetchOutcome.err "Failed to fetch transcription" ∧
    terminalOutcome Transcription.status (transErrEnv 1) = false ∧
    fetchOccurs (transContinue transErrEnv) 5000 1 = true ∧
    fetchOccurs (transContinue transErrEnv) 5000 2 = false :=
  ⟨rfl, rfl, rfl, rfl⟩

/-- C1 amended: when a status fetch fails for a reason other than not-found,
the poller surfaces the error, leaves the previously known job record
intact, and stops polling: no status fetch occurs after the failing one
(for both the transcription and the generation poller). -/
theorem c1_error_surfaced_state_intact_polling_stops :
    (∀ (s : TranscriptionStore.State) (msg : String),
      (TranscriptionStore.fetchTranscription s (.err msg)).1.error = some msg ∧
      (TranscriptionStore.fetchTranscription s (.err msg)).1.currentTranscription
        = s.currentTranscription) ∧
    (∀ (s : AIGenerationStore.State) (msg : String),
      (AIGenerationStore.fetchSpecificGeneration s (.err msg)).1.error
        = some msg ∧
      (AIGenerationStore.fetchSpecificGeneration s (.err msg)).1.currentGeneration
        = s.currentGeneration) ∧
    (∀ (envT : Nat → FetchOutcome Transcription) (i j k : Nat) (msg : String),
      envT j = .err msg → fetchOccurs (transContinue envT) i k = true →
        k ≤ j) ∧
    (∀ (envG : Nat → FetchOutcome GeneratedContent) (i j k : Nat)
        (msg : String),
      envG j = .err msg → fetchOccurs (genContinue envG) i k = true →
        k ≤ j) := by
  refine ⟨fun s msg => ⟨rfl, rfl⟩, fun s msg => ⟨rfl, rfl⟩, ?_, ?_⟩
  · intro envT i j k msg hj hk
    by_contra hjk
    have hsc : transContinue envT j = false := by
      rw [transContinue, hj]
      rfl
    have := fetchOccurs_false_of_stop (transContinue envT) i hsc
      (Nat.lt_of_not_le fun h => hjk h)
    rw [hk] at this
    exact absurd this (by simp)
  · intro envG i j k msg hj hk
    by_contra hjk
    have hsc : genContinue envG j = false := by
      rw [genContinue, hj]
      rfl
    have := fetchOccurs_false_of_stop (genContinue envG) i hsc
      (Nat.lt_of_not_le fun h => hjk h)
    rw [hk] at this
    exact absurd this (by simp)

/-- Witness for the amended C1 at concrete inputs. -/
theorem c1_error_surfaced_state_intact_polling_stops_witness :
    (TranscriptionStore.fetchTranscription TranscriptionStore.initialState
        (.err "boom")).1.error = some "boom" ∧
    (AIGenerationStore.fetchSpecificGeneration AIGenerationStore.initialState
        (.err "boom")).1.error = some "boom" ∧
    (1 : Nat) ≤ 1 ∧ (1 : Nat) ≤ 1 :=
  ⟨(c1_error_surfaced_state_intact_polling_stops.1
      TranscriptionStore.initialState "boom").1,
   (c1_error_surfaced_state_intact_polling_stops.2.1
      AIGenerationStore.initialState "boom").1,
   c1_error_surfaced_state_intact_polling_stops.2.2.1 transErrEnv 5000 1 1
     "Failed to fetch transcription" rfl rfl,
   c1_error_surfaced_state_intact_polling_stops.2.2.2 genErrEnv 5000 1 1
     "Failed to fetch generation" rfl rfl⟩

/-- C2 counterexample: the claim says every job key's `start` performs one
immediate status check that updates the observable current-job record.  The
generation store's `startGeneration` only POSTs the start request: on
success it returns `true` having touched nothing but
`isLoading`/`error`, so `currentGeneration` still holds no record —
no status check happened (the transcription store does fetch, see the
amended theorem). -/
theorem c2_start_immediate_check_cex :
    AIGenerationStore.startGeneration AIGenerationStore.initialState
        (.ok ()) =
      ({ AIGenerationStore.initialState with
         isLoading := true, error := none }, true) ∧
    (AIGenerationStore.startGeneration AIGenerationStore.initialState
        (.ok ())).1.currentGeneration = none :=
  ⟨rfl, rfl⟩

/-- C2 amended: `startNewTranscription` issues the start request and, when
it succeeds, performs one immediate status check whose result updates
`currentTranscription`; the generation store's `startGeneration` only
issues the start request and performs no status check (its whole success
effect is `isLoading := true, error := none`). -/
theorem c2_start_immediate_check_transcription_only :
    (∀ (s : TranscriptionStore.State) (t : Transcription),
      TranscriptionStore.startNewTranscription s (.ok ()) (.ok t) =
        ({ s with
           currentTranscription := some t, isLoading := false,
           error := none }, true)) ∧
    (∀ (s : AIGenerationStore.State),
      AIGenerationStore.startGeneration s (.ok ()) =
        ({ s with isLoading := true, error := none }, true)) :=
  ⟨fun _ _ => rfl, fun _ => rfl⟩

/-- C3: every poll session performs no status fetch later than the safety
window (`10 * 60 * 1000` ms) after polling began, for any fetch
environment — in particular for ones whose status never becomes
terminal. -/
theorem c3_poll_stops_within_max_window
    (envT : Nat → FetchOutcome Transcription)
    (envG : Nat → FetchOutcome GeneratedContent) (intervalMs k : Nat) :
    (fetchOccurs (transContinue envT) intervalMs k = true →
      intervalMs * k ≤ pollWindowMs) ∧
    (fetchOccurs (genContinue envG) intervalMs k = true →
      intervalMs * k ≤ pollWindowMs) :=
  ⟨fetchOccurs_time_le _ _ k, fetchOccurs_time_le _ _ k⟩

/-- Witness for C3 at concrete inputs. -/
theorem c3_poll_stops_within_max_window_witness :
    fetchOccurs (transContinue transPendingEnv) 5000 2 = true ∧
    5000 * 2 ≤ pollWindowMs ∧ 5000 * 3 ≤ pollWindowMs :=
  ⟨by decide,
   (c3_poll_stops_within_max_window transPendingEnv genPendingEnv 5000 2).1
     (by decide),
   (c3_poll_stops_within_max_window transPendingEnv genPendingEnv 5000 3).2
     (by decide)⟩

/-- C4: once a status fetch (which occurred) returns a terminal
(`completed`/`failed`) status, every status fetch of the session happens no
later than one interval tick after that observation — the tick that sees
the terminal status clears the interval, so in fact no later fetch occurs
at all. -/
theorem c4_poll_stops_after_terminal
    (envT : Nat → FetchOutcome Transcription)
    (envG : Nat → FetchOutcome GeneratedContent) (intervalMs j k : Nat) :
    (fetchOccurs (transContinue envT) intervalMs j = true →
      terminalOutcome Transcription.status (envT j) = true →
      fetchOccurs (transContinue envT) intervalMs k = true →
      intervalMs * k ≤ intervalMs * j + intervalMs) ∧
    (fetchOccurs (genContinue envG) intervalMs j = true →
      terminalOutcome GeneratedContent.status (envG j) = true →
      fetchOccurs (genContinue envG) intervalMs k = true →
      intervalMs * k ≤ intervalMs * j + intervalMs) := by
  constructor
  · intro _ hterm hk
    exact fetch_time_bound_of_stop _ intervalMs j k
      (checkStatus_false_of_terminal Transcription.status (envT j) hterm) hk
  · intro _ hterm hk
    exact fetch_time_bound_of_stop _ intervalMs j k
      (checkStatus_false_of_terminal GeneratedContent.status (envG j) hterm) hk

/-- Witness for C4 at concrete inputs: pending initially, completed at the
first tick. -/
theorem c4_poll_stops_after_terminal_witness :
    fetchOccurs (transContinue transTerminalEnv) 5000 1 = true ∧
    terminalOutcome Transcription.status (transTerminalEnv 1) = true ∧
    fetchOccurs (genContinue genTerminalEnv) 5000 1 = true ∧
    terminalOutcome GeneratedContent.status (genTerminalEnv 1) = true ∧
    5000 * 1 ≤ 5000 * 1 + 5000 ∧ 5000 * 1 ≤ 5000 * 1 + 5000 :=
  ⟨by decide, by decide, by decide, by decide,
   (c4_poll_stops_after_terminal transTerminalEnv genTerminalEnv 5000 1 1).1
     (by decide) (by decide) (by decide),
   (c4_poll_stops_after_terminal transTerminalEnv genTerminalEnv 5000 1 1).2
     (by decide) (by decide) (by decide)⟩

/-- C5: with a 5000 ms interval, the 10-minute safety window, and every
fetch returning a `"pending"` job, a poll session performs exactly 120
status fetches: fetch `k` (the initial check is `k = 0`, the tick at
`5000 * k` ms is `k ≥ 1`) occurs precisely when `k < 120`. -/
theorem c5_exactly_120_attempts (k : Nat) :
    (fetchOccurs (transContinue transPendingEnv) 5000 k = true ↔ k < 120) ∧
    (fetchOccurs (genContinue genPendingEnv) 5000 k = true ↔ k < 120) :=
  ⟨fetchOccurs_pending_iff _ (fun _ => rfl) k,
   fetchOccurs_pending_iff _ (fun _ => rfl) k⟩

/-! ## Persistence round-trip lemmas -/

/-- Element-wise decode inverts element-wise encode, preserving order. -/
theorem decodeElems_map {α : Type} (enc : α → Json) (dec : Json → Option α)
    (h : ∀ x, dec (enc x) = some x) (l : List α) :
    decodeElems dec (l.map enc) = some l := by
  induction l with
  | nil => rfl
  | cons x xs ih => simp [decodeElems, h, ih]

/-- Decoding inverts encoding on one todo. -/
theorem decTodo_encTodo (t : TodoComponent.Todo) :
    TodoComponent.decTodo (TodoComponent.encTodo t) = some t := rfl

/-- Decoding inverts encoding on one study goal. -/
theorem decGoal_encGoal (g : StudyPlanComponent.StudyGoal) :
    StudyPlanComponent.decGoal (StudyPlanComponent.encGoal g) = some g := by
  rcases g with ⟨id, title, d, c, td, p⟩
  cases d <;> cases td <;> cases p <;> rfl

/-- Decoding inverts encoding on one study session. -/
theorem decSession_encSession (s : StudyPlanComponent.StudySession) :
    StudyPlanComponent.decSession (StudyPlanComponent.encSession s) = some s := by
  rcases s with ⟨id, gid, d, dur, n⟩
  cases n <;> rfl

/-- Decoding inverts encoding on one flashcard. -/
theorem decCard_encCard (c : FlashcardComponent.Flashcard) :
    FlashcardComponent.decCard (FlashcardComponent.encCard c) = some c := by
  rcases c with ⟨id, q, a, lr, cf⟩
  cases lr <;> cases cf <;> rfl

/-! ## Claims about the local-storage collections -/

/-- C6 counterexample: the claim says every mutation rewrites the entire
resulting collection — including an empty one — to the storage slot.  The
Todo save effect is guarded by `todos.length > 0`: deleting the only todo
leaves the slot holding the old one-element list, not the new empty
list, so the slot no longer equals the in-memory collection. -/
theorem c6_empty_collection_rewritten_cex :
    TodoComponent.deleteTodo
        [{ id := "1", text := "a", completed := false, createdAt := "1" }]
        "1" = [] ∧
    TodoComponent.saveTodos
        (TodoComponent.saveTodos none
          [{ id := "1", text := "a", completed := false, createdAt := "1" }])
        (TodoComponent.deleteTodo
          [{ id := "1", text := "a", completed := false, createdAt := "1" }]
          "1")
      = some (TodoComponent.encTodoList
          [{ id := "1", text := "a", completed := false, createdAt := "1" }]) ∧
    TodoComponent.encTodoList
        [{ id := "1", text := "a", completed := false, createdAt := "1" }]
      ≠ TodoComponent.encTodoList ([] : List TodoComponent.Todo) := by
  refine ⟨rfl, rfl, ?_⟩
  simp [TodoComponent.encTodoList]

/-- C6 amended: after every mutation the StudyPlan goals and sessions slots
are unconditionally rewritten to the full resulting collection; the Todo
and Flashcard slots are rewritten only when the resulting collection is
non-empty — a mutation that empties those collections leaves their slot
unchanged. -/
theorem c6_slot_rewrite_on_mutation :
    (∀ (slot : Option Json) (ts : List TodoComponent.Todo), ts ≠ [] →
      TodoComponent.saveTodos slot ts = some (TodoComponent.encTodoList ts)) ∧
    (∀ (slot : Option Json),
      TodoComponent.saveTodos slot [] = slot) ∧
    (∀ (slot : Option Json) (cs : List FlashcardComponent.Flashcard),
      cs ≠ [] →
      FlashcardComponent.saveCards slot cs
        = some (FlashcardComponent.encCardList cs)) ∧
    (∀ (slot : Option Json),
      FlashcardComponent.saveCards slot [] = slot) ∧
    (∀ (slot : Option Json) (gs : List StudyPlanComponent.StudyGoal),
      StudyPlanComponent.saveGoals slot gs
        = some (StudyPlanComponent.encGoalList gs)) ∧
    (∀ (slot : Option Json) (ss : List StudyPlanComponent.StudySession),
      StudyPlanComponent.saveSessions slot ss
        = some (StudyPlanComponent.encSessionList ss)) := by
  refine ⟨?_, fun _ => rfl, ?_, fun _ => rfl, fun _ _ => rfl, fun _ _ => rfl⟩
  · intro slot ts hts
    simp [TodoComponent.saveTodos, List.length_pos.mpr hts]
  · intro slot cs hcs
    simp [FlashcardComponent.saveCards, List.length_pos.mpr hcs]

/-- Witness for the amended C6 at concrete inputs. -/
theorem c6_slot_rewrite_on_mutation_witness :
    TodoComponent.saveTodos none
        [{ id := "1", text := "a", completed := false, createdAt := "1" }]
      = some (TodoComponent.encTodoList
        [{ id := "1", text := "a", completed := false, createdAt := "1" }]) ∧
    FlashcardComponent.saveCards none
        [{ id := "2", question := "q", answer := "a", lastReviewed := none,
           confidence := .medium }]
      = some (FlashcardComponent.encCardList
        [{ id := "2", question := "q", answer := "a", lastReviewed := none,
           confidence := .medium }]) :=
  ⟨c6_slot_rewrite_on_mutation.1 none
      [{ id := "1", text := "a", completed := false, createdAt := "1" }]
      (by simp),
   c6_slot_rewrite_on_mutation.2.2.1 none
      [{ id := "2", question := "q", answer := "a", lastReviewed := none,
         confidence := .medium }]
      (by simp)⟩

/-- C7: writing a collection to its slot (JSON-encoding it) and reloading
(decoding) reproduces exactly the same items, in the same order, with
identical field values, for all four persisted collections. -/
theorem c7_collection_roundtrip (ts : List TodoComponent.Todo)
    (gs : List StudyPlanComponent.StudyGoal)
    (ss : List StudyPlanComponent.StudySession)
    (cs : List FlashcardComponent.Flashcard) :
    TodoComponent.decTodoList (TodoComponent.encTodoList ts) = some ts ∧
    StudyPlanComponent.decGoalList (StudyPlanComponent.encGoalList gs)
      = some gs ∧
    StudyPlanComponent.decSessionList (StudyPlanComponent.encSessionList ss)
      = some ss ∧
    FlashcardComponent.decCardList (FlashcardComponent.encCardList cs)
      = some cs := by
  refine ⟨?_, ?_, ?_, ?_⟩
  · simpa [TodoComponent.decTodoList, TodoComponent.encTodoList] using
      decodeElems_map _ _ decTodo_encTodo ts
  · simpa [StudyPlanComponent.decGoalList, StudyPlanComponent.encGoalList]
      using decodeElems_map _ _ decGoal_encGoal gs
  · simpa [StudyPlanComponent.decSessionList,
      StudyPlanComponent.encSessionList] using
      decodeElems_map _ _ decSession_encSession ss
  · simpa [FlashcardComponent.decCardList, FlashcardComponent.encCardList]
      using decodeElems_map _ _ decCard_encCard cs

/-- Mapping a per-record rewrite that preserves a field leaves that field's
column unchanged. -/
theorem map_field_of_preserved {α β : Type} (g : α → α) (f : α → β)
    (h : ∀ x, f (g x) = f x) (l : List α) : (l.map g).map f = l.map f := by
  rw [List.map_map]
  exact List.map_congr_left fun a _ => h a

/-- Toggling one todo twice gives the todo back. -/
theorem todo_toggle_twice (tid : String) (t : TodoComponent.Todo) :
    (fun todo : TodoComponent.Todo =>
        if todo.id = tid then { todo with completed := !todo.completed }
        else todo)
      ((fun todo : TodoComponent.Todo =>
          if todo.id = tid then { todo with completed := !todo.completed }
          else todo) t) = t := by
  by_cases h : t.id = tid
  · rw [← h]
    simp
  · simp [h]

/-- Toggling one study goal twice gives the goal back. -/
theorem goal_toggle_twice (gid : String) (g : StudyPlanComponent.StudyGoal) :
    (fun goal : StudyPlanComponent.StudyGoal =>
        if goal.id = gid then { goal with completed := !goal.completed }
        else goal)
      ((fun goal : StudyPlanComponent.StudyGoal =>
          if goal.id = gid then { goal with completed := !goal.completed }
          else goal) g) = g := by
  by_cases h : g.id = gid
  · rw [← h]
    simp
  · simp [h]

/-- C9: `deleteGoal` removes the goal with the given id together with every
session referencing it, keeps every other goal and session (in their
original order), and deletes exactly as many sessions as were associated
with the goal. -/
theorem c9_deleteGoal_cascades (gs : List StudyPlanComponent.StudyGoal)
    (ss : List StudyPlanComponent.StudySession) (gid : String) :
    (∀ g ∈ (StudyPlanComponent.deleteGoal gs ss gid).1, g.id ≠ gid) ∧
    (∀ g ∈ gs, g.id ≠ gid → g ∈ (StudyPlanComponent.deleteGoal gs ss gid).1) ∧
    (∀ s ∈ (StudyPlanComponent.deleteGoal gs ss gid).2, s.goalId ≠ gid) ∧
    (∀ s ∈ ss, s.goalId ≠ gid →
      s ∈ (StudyPlanComponent.deleteGoal gs ss gid).2) ∧
    (StudyPlanComponent.deleteGoal gs ss gid).1.Sublist gs ∧
    (StudyPlanComponent.deleteGoal gs ss gid).2.Sublist ss ∧
    ss.length = (ss.filter fun s => s.goalId = gid).length +
      (StudyPlanComponent.deleteGoal gs ss gid).2.length := by
  refine ⟨?_, ?_, ?_, ?_, List.filter_sublist gs, List.filter_sublist ss, ?_⟩
  · intro g hg
    exact of_decide_eq_true (List.mem_filter.mp hg).2
  · intro g hg hne
    exact List.mem_filter.mpr ⟨hg, decide_eq_true hne⟩
  · intro s hs
    exact of_decide_eq_true (List.mem_filter.mp hs).2
  · intro s hs hne
    exact List.mem_filter.mpr ⟨hs, decide_eq_true hne⟩
  · have h := List.length_eq_length_filter_add
      (l := ss) (fun s => decide (s.goalId = gid))
    simpa [StudyPlanComponent.deleteGoal, decide_not] using h

/-- Witness for C9 at a concrete plan: two goals, one session each;
deleting goal `"1"` keeps goal `"2"` and its session. -/
theorem c9_deleteGoal_cascades_witness :
    ({ id := "2", title := "g2", description := none, completed := false,
       targetDate := none,
       priority := .medium } : StudyPlanComponent.StudyGoal) ∈
      (StudyPlanComponent.deleteGoal
        [{ id := "1", title := "g1", description := none, completed := false,
           targetDate := none, priority := .medium },
         { id := "2", title := "g2", description := none, completed := false,
           targetDate := none, priority := .medium }]
        [{ id := "10", goalId := "1", date := "d", duration := 30,
           notes := none },
         { id := "11", goalId := "2", date := "d", duration := 30,
           notes := none }]
        "1").1 ∧
    ({ id := "11", goalId := "2", date := "d", duration := 30,
       notes := none } : StudyPlanComponent.StudySession) ∈
      (StudyPlanComponent.deleteGoal
        [{ id := "1", title := "g1", description := none, completed := false,
           targetDate := none, priority := .medium },
         { id := "2", title := "g2", description := none, completed := false,
           targetDate := none, priority := .medium }]
        [{ id := "10", goalId := "1", date := "d", duration := 30,
           notes := none },
         { id := "11", goalId := "2", date := "d", duration := 30,
           notes := none }]
        "1").2 :=
  ⟨(c9_deleteGoal_cascades _ _ "1").2.1 _ (by decide) (by decide),
   (c9_deleteGoal_cascades _ _ "1").2.2.2.1 _ (by decide) (by decide)⟩

/-- C10: toggling completion changes only the `completed` field, and only
on the records whose id matches; the id/text/createdAt (resp. id, title,
description, targetDate, priority) columns are untouched, and toggling
twice restores the original collection. -/
theorem c10_toggle_flips_only_completed (ts : List TodoComponent.Todo)
    (tid : String) (gs : List StudyPlanComponent.StudyGoal) (gid : String) :
    ((TodoComponent.toggleComplete ts tid).map TodoComponent.Todo.id
      = ts.map TodoComponent.Todo.id) ∧
    ((TodoComponent.toggleComplete ts tid).map TodoComponent.Todo.text
      = ts.map TodoComponent.Todo.text) ∧
    ((TodoComponent.toggleComplete ts tid).map TodoComponent.Todo.createdAt
      = ts.map TodoComponent.Todo.createdAt) ∧
    ((TodoComponent.toggleComplete ts tid).map TodoComponent.Todo.completed
      = ts.map fun t => if t.id = tid then !t.completed else t.completed) ∧
    TodoComponent.toggleComplete (TodoComponent.toggleComplete ts tid) tid
      = ts ∧
    ((StudyPlanComponent.toggleGoalComplete gs gid).map
        StudyPlanComponent.StudyGoal.id
      = gs.map StudyPlanComponent.StudyGoal.id) ∧
    ((StudyPlanComponent.toggleGoalComplete gs gid).map
        StudyPlanComponent.StudyGoal.title
      = gs.map StudyPlanComponent.StudyGoal.title) ∧
    ((StudyPlanComponent.toggleGoalComplete gs gid).map
        StudyPlanComponent.StudyGoal.description
      = gs.map StudyPlanComponent.StudyGoal.description) ∧
    ((StudyPlanComponent.toggleGoalComplete gs gid).map
        StudyPlanComponent.StudyGoal.targetDate
      = gs.map StudyPlanComponent.StudyGoal.targetDate) ∧
    ((StudyPlanComponent.toggleGoalComplete gs gid).map
        StudyPlanComponent.StudyGoal.priority
      = gs.map StudyPlanComponent.StudyGoal.priority) ∧
    ((StudyPlanComponent.toggleGoalComplete gs gid).map
        StudyPlanComponent.StudyGoal.completed
      = gs.map fun g => if g.id = gid then !g.completed else g.completed) ∧
    StudyPlanComponent.toggleGoalComplete
      (StudyPlanComponent.toggleGoalComplete gs gid) gid = gs := by
  refine ⟨map_field_of_preserved _ _ ?_ ts, map_field_of_preserved _ _ ?_ ts,
    map_field_of_preserved _ _ ?_ ts, ?_, ?_,
    map_field_of_preserved _ _ ?_ gs, map_field_of_preserved _ _ ?_ gs,
    map_field_of_preserved _ _ ?_ gs, map_field_of_preserved _ _ ?_ gs,
    map_field_of_preserved _ _ ?_ gs, ?_, ?_⟩
  · intro t; by_cases h : t.id = tid <;> simp [h]
  · intro t; by_cases h : t.id = tid <;> simp [h]
  · intro t; by_cases h : t.id = tid <;> simp [h]
  · rw [TodoComponent.toggleComplete, List.map_map]
    refine List.map_congr_left fun t _ => ?_
    by_cases h : t.id = tid <;> simp [h]
  · induction ts with
    | nil => rfl
    | cons t ts ih =>
        simp only [TodoComponent.toggleComplete, List.map_cons]
        exact congrArg₂ List.cons (todo_toggle_twice tid t) ih
  · intro g; by_cases h : g.id = gid <;> simp [h]
  · intro g; by_cases h : g.id = gid <;> simp [h]
  · intro g; by_cases h : g.id = gid <;> simp [h]
  · intro g; by_cases h : g.id = gid <;> simp [h]
  · intro g; by_cases h : g.id = gid <;> simp [h]
  · rw [StudyPlanComponent.toggleGoalComplete, List.map_map]
    refine List.map_congr_left fun g _ => ?_
    by_cases h : g.id = gid <;> simp [h]
  · induction gs with
    | nil => rfl
    | cons g gs ih =>
        simp only [StudyPlanComponent.toggleGoalComplete, List.map_cons]
        exact congrArg₂ List.cons (goal_toggle_twice gid g) ih

/-! ## Identifier-uniqueness machinery for C8 -/

/-- A sublist's image keeps `Nodup`. -/
theorem nodup_map_of_sublist {α β : Type} (f : α → β) {l₁ l₂ : List α}
    (h : l₁.Sublist l₂) (hn : (l₂.map f).Nodup) : (l₁.map f).Nodup :=
  List.Nodup.sublist (h.map f) hn

/-- A value absent from a list's image is absent from a sublist's image. -/
theorem not_mem_map_of_sublist {α β : Type} (f : α → β) {l₁ l₂ : List α}
    (h : l₁.Sublist l₂) {x : β} (hx : x ∉ l₂.map f) : x ∉ l₁.map f :=
  fun hm => hx ((h.map f).subset hm)

/-- Reachable todo lists have `Nodup` ids provided the decimal `Date.now`
strings supplied to the pending `add` operations are pairwise distinct and
unused in the starting list. -/
theorem todo_ids_nodup (ops : List TodoComponent.Op) :
    ∀ l : List TodoComponent.Todo,
      ((TodoComponent.addTimes ops).map (fun n : Nat => toString n)).Nodup →
      (∀ n ∈ TodoComponent.addTimes ops,
        toString n ∉ l.map TodoComponent.Todo.id) →
      (l.map TodoComponent.Todo.id).Nodup →
      ((ops.foldl TodoComponent.applyOp l).map
        TodoComponent.Todo.id).Nodup := by
  induction ops with
  | nil => intro l _ _ hl; simpa using hl
  | cons op ops ih =>
      intro l htimes hfresh hl
      rw [List.foldl_cons]
      cases op with
      | add now text =>
          obtain ⟨hnotin, htl⟩ :
              toString now ∉ (TodoComponent.addTimes ops).map
                  (fun n : Nat => toString n) ∧
              ((TodoComponent.addTimes ops).map
                  (fun n : Nat => toString n)).Nodup := by
            simpa [TodoComponent.addTimes, List.nodup_cons] using htimes
          by_cases htr : text.trim = ""
          · have hid : TodoComponent.applyOp l (.add now text) = l := by
              simp [TodoComponent.applyOp, TodoComponent.handleAddTodo, htr]
            rw [hid]
            exact ih l htl
              (fun n hn => hfresh n (by
                simp only [TodoComponent.addTimes, List.mem_cons]
                exact Or.inr hn)) hl
          · have happ : TodoComponent.applyOp l (.add now text)
                = l ++ [⟨toString now, text.trim, false, toString now⟩] := by
              simp [TodoComponent.applyOp, TodoComponent.handleAddTodo, htr]
            rw [happ]
            apply ih _ htl
            · intro n hn
              have h1 : toString n ∉ l.map TodoComponent.Todo.id :=
                hfresh n (by
                  simp only [TodoComponent.addTimes, List.mem_cons]
                  exact Or.inr hn)
              have h2 : toString n ≠ toString now := by
                intro he
                exact hnotin (he ▸ List.mem_map_of_mem _ hn)
              simp [List.map_append, h1, h2]
            · have hnow : toString now ∉ l.map TodoComponent.Todo.id :=
                hfresh now (by simp [TodoComponent.addTimes])
              simp [List.map_append, List.nodup_append, hl, hnow]
      | toggle id =>
          have hids : (TodoComponent.applyOp l (.toggle id)).map
              TodoComponent.Todo.id = l.map TodoComponent.Todo.id :=
            map_field_of_preserved _ _
              (fun t => by by_cases h : t.id = id <;> simp [h]) l
          refine ih _ (by simpa [TodoComponent.addTimes] using htimes) ?_ ?_
          · intro n hn
            rw [hids]
            exact hfresh n (by simpa [TodoComponent.addTimes] using hn)
          · rw [hids]; exact hl
      | del id =>
          have hsub : (TodoComponent.applyOp l (.del id)).Sublist l :=
            List.filter_sublist l
          refine ih _ (by simpa [TodoComponent.addTimes] using htimes) ?_ ?_
          · intro n hn
            exact not_mem_map_of_sublist _ hsub
              (hfresh n (by simpa [TodoComponent.addTimes] using hn))
          · exact nodup_map_of_sublist _ hsub hl
      | clear =>
          have hsub : (TodoComponent.applyOp l .clear).Sublist l :=
            List.filter_sublist l
          refine ih _ (by simpa [TodoComponent.addTimes] using htimes) ?_ ?_
          · intro n hn
            exact not_mem_map_of_sublist _ hsub
              (hfresh n (by simpa [TodoComponent.addTimes] using hn))
          · exact nodup_map_of_sublist _ hsub hl

/-- An index-aware per-record rewrite that preserves a field leaves that
field's column unchanged. -/
theorem map_field_mapWithIdx {β : Type}
    (f : Nat → FlashcardComponent.Flashcard → FlashcardComponent.Flashcard)
    (g : FlashcardComponent.Flashcard → β) (h : ∀ i a, g (f i a) = g a) :
    ∀ (i : Nat) (l : List FlashcardComponent.Flashcard),
      (FlashcardComponent.mapWithIdx f i l).map g = l.map g := by
  intro i l
  induction l generalizing i with
  | nil => rfl
  | cons c cs ih => simp [FlashcardComponent.mapWithIdx, h, ih]

/-- Reachable flashcard lists have `Nodup` ids provided the decimal
`Date.now` strings supplied to the pending non-editing `addCard` operations
are pairwise distinct and unused in the starting list. -/
theorem card_ids_nodup (ops : List FlashcardComponent.Op) :
    ∀ l : List FlashcardComponent.Flashcard,
      ((FlashcardComponent.addTimes ops).map (fun n : Nat => toString n)).Nodup →
      (∀ n ∈ FlashcardComponent.addTimes ops,
        toString n ∉ l.map FlashcardComponent.Flashcard.id) →
      (l.map FlashcardComponent.Flashcard.id).Nodup →
      ((ops.foldl FlashcardComponent.applyOp l).map
        FlashcardComponent.Flashcard.id).Nodup := by
  induction ops with
  | nil => intro l _ _ hl; simpa using hl
  | cons op ops ih =>
      intro l htimes hfresh hl
      rw [List.foldl_cons]
      cases op with
      | addCard now eid q a =>
          cases eid with
          | some e =>
              have hids : (FlashcardComponent.applyOp l
                    (.addCard now (some e) q a)).map
                  FlashcardComponent.Flashcard.id
                  = l.map FlashcardComponent.Flashcard.id := by
                by_cases hg : q.trim ≠ "" ∧ a.trim ≠ ""
                · have := map_field_of_preserved
                    (fun card : FlashcardComponent.Flashcard =>
                      if card.id = e then
                        { card with question := q.trim, answer := a.trim }
                      else card)
                    FlashcardComponent.Flashcard.id
                    (fun c => by by_cases h : c.id = e <;> simp [h]) l
                  simpa [FlashcardComponent.applyOp,
                    FlashcardComponent.handleAddCard, hg] using this
                · simp [FlashcardComponent.applyOp,
                    FlashcardComponent.handleAddCard, hg]
              refine ih _ (by simpa [FlashcardComponent.addTimes] using htimes)
                ?_ ?_
              · intro n hn
                rw [hids]
                exact hfresh n
                  (by simpa [FlashcardComponent.addTimes] using hn)
              · rw [hids]; exact hl
          | none =>
              obtain ⟨hnotin, htl⟩ :
                  toString now ∉ (FlashcardComponent.addTimes ops).map
                      (fun n : Nat => toString n) ∧
                  ((FlashcardComponent.addTimes ops).map
                      (fun n : Nat => toString n)).Nodup := by
                simpa [FlashcardComponent.addTimes, List.nodup_cons]
                  using htimes
              by_cases hg : q.trim ≠ "" ∧ a.trim ≠ ""
              · have happ : FlashcardComponent.applyOp l
                      (.addCard now none q a)
                    = l ++ [⟨toString now, q.trim, a.trim, none, .medium⟩] := by
                  simp [FlashcardComponent.applyOp,
                    FlashcardComponent.handleAddCard, hg]
                rw [happ]
                apply ih _ htl
                · intro n hn
                  have h1 : toString n ∉ l.map
                      FlashcardComponent.Flashcard.id :=
                    hfresh n (by
                      simp only [FlashcardComponent.addTimes, List.mem_cons]
                      exact Or.inr hn)
                  have h2 : toString n ≠ toString now := by
                    intro he
                    exact hnotin (he ▸ List.mem_map_of_mem _ hn)
                  simp [List.map_append, h1, h2]
                · have hnow : toString now ∉ l.map
                      FlashcardComponent.Flashcard.id :=
                    hfresh now (by simp [FlashcardComponent.addTimes])
                  simp [List.map_append, List.nodup_append, hl, hnow]
              · have hid : FlashcardComponent.applyOp l
                    (.addCard now none q a) = l := by
                  simp [FlashcardComponent.applyOp,
                    FlashcardComponent.handleAddCard, hg]
                rw [hid]
                exact ih l htl
                  (fun n hn => hfresh n (by
                    simp only [FlashcardComponent.addTimes, List.mem_cons]
                    exact Or.inr hn)) hl
      | delCard id =>
          have hsub : (FlashcardComponent.applyOp l (.delCard id)).Sublist l :=
            List.filter_sublist l
          refine ih _ (by simpa [FlashcardComponent.addTimes] using htimes)
            ?_ ?_
          · intro n hn
            exact not_mem_map_of_sublist _ hsub
              (hfresh n (by simpa [FlashcardComponent.addTimes] using hn))
          · exact nodup_map_of_sublist _ hsub hl
      | confidence cur c iso =>
          have hids : (FlashcardComponent.applyOp l (.confidence cur c iso)).map
              FlashcardComponent.Flashcard.id
              = l.map FlashcardComponent.Flashcard.id := by
            cases cur with
            | none => rfl
            | some idx =>
                exact map_field_mapWithIdx _ _
                  (fun i a => by by_cases h : i = idx <;> simp [h]) 0 l
          refine ih _ (by simpa [FlashcardComponent.addTimes] using htimes)
            ?_ ?_
          · intro n hn
            rw [hids]
            exact hfresh n (by simpa [FlashcardComponent.addTimes] using hn)
          · rw [hids]; exact hl

/-- Reachable study-plan states have `Nodup` goal ids and `Nodup` session
ids provided the decimal `Date.now` strings supplied to the pending
`addGoal` (resp. `addSession`) operations are pairwise distinct and unused
in the starting lists. -/
theorem plan_ids_nodup (ops : List StudyPlanComponent.Op) :
    ∀ st : List StudyPlanComponent.StudyGoal ×
        List StudyPlanComponent.StudySession,
      ((StudyPlanComponent.goalAddTimes ops).map
        (fun n : Nat => toString n)).Nodup →
      ((StudyPlanComponent.sessionAddTimes ops).map
        (fun n : Nat => toString n)).Nodup →
      (∀ n ∈ StudyPlanComponent.goalAddTimes ops,
        toString n ∉ st.1.map StudyPlanComponent.StudyGoal.id) →
      (∀ n ∈ StudyPlanComponent.sessionAddTimes ops,
        toString n ∉ st.2.map StudyPlanComponent.StudySession.id) →
      (st.1.map StudyPlanComponent.StudyGoal.id).Nodup →
      (st.2.map StudyPlanComponent.StudySession.id).Nodup →
      (((ops.foldl StudyPlanComponent.applyOp st).1.map
          StudyPlanComponent.StudyGoal.id).Nodup ∧
       ((ops.foldl StudyPlanComponent.applyOp st).2.map
          StudyPlanComponent.StudySession.id).Nodup) := by
  induction ops with
  | nil =>
      intro st _ _ _ _ hg hs
      simpa using ⟨hg, hs⟩
  | cons op ops ih =>
      rintro ⟨gs, ss⟩ hgt hst hgfresh hsfresh hg hs
      rw [List.foldl_cons]
      cases op with
      | addGoal now title d td p =>
          obtain ⟨hnotin, htl⟩ :
              toString now ∉ (StudyPlanComponent.goalAddTimes ops).map
                  (fun n : Nat => toString n) ∧
              ((StudyPlanComponent.goalAddTimes ops).map
                  (fun n : Nat => toString n)).Nodup := by
            simpa [StudyPlanComponent.goalAddTimes, List.nodup_cons] using hgt
          by_cases htr : title.trim = ""
          · have hid : StudyPlanComponent.applyOp (gs, ss)
                (.addGoal now title d td p) = (gs, ss) := by
              simp [StudyPlanComponent.applyOp,
                StudyPlanComponent.handleAddGoal, htr]
            rw [hid]
            exact ih (gs, ss) htl
              (by simpa [StudyPlanComponent.sessionAddTimes] using hst)
              (fun n hn => hgfresh n (by
                simp only [StudyPlanComponent.goalAddTimes, List.mem_cons]
                exact Or.inr hn))
              (fun n hn => hsfresh n
                (by simpa [StudyPlanComponent.sessionAddTimes] using hn))
              hg hs
          · have happ : StudyPlanComponent.applyOp (gs, ss)
                  (.addGoal now title d td p)
                = (gs ++ [⟨toString now, title.trim, d.map String.trim,
                    false, td, p⟩], ss) := by
              simp [StudyPlanComponent.applyOp,
                StudyPlanComponent.handleAddGoal, htr]
            rw [happ]
            apply ih _ htl
              (by simpa [StudyPlanComponent.sessionAddTimes] using hst)
            · intro n hn
              have h1 : toString n ∉ gs.map
                  StudyPlanComponent.StudyGoal.id :=
                hgfresh n (by
                  simp only [StudyPlanComponent.goalAddTimes, List.mem_cons]
                  exact Or.inr hn)
              have h2 : toString n ≠ toString now := by
                intro he
                exact hnotin (he ▸ List.mem_map_of_mem _ hn)
              simp [List.map_append, h1, h2]
            · intro n hn
              exact hsfresh n
                (by simpa [StudyPlanComponent.sessionAddTimes] using hn)
            · have hnow : toString now ∉ gs.map
                  StudyPlanComponent.StudyGoal.id :=
                hgfresh now (by simp [StudyPlanComponent.goalAddTimes])
              simp [List.map_append, List.nodup_append, hg, hnow]
            · exact hs
      | addSession now gid date dur notes =>
          obtain ⟨hnotin, htl⟩ :
              toString now ∉ (StudyPlanComponent.sessionAddTimes ops).map
                  (fun n : Nat => toString n) ∧
              ((StudyPlanComponent.sessionAddTimes ops).map
                  (fun n : Nat => toString n)).Nodup := by
            simpa [StudyPlanComponent.sessionAddTimes, List.nodup_cons]
              using hst
          by_cases hgd : gid ≠ "" ∧ dur ≠ 0
          · have happ : StudyPlanComponent.applyOp (gs, ss)
                  (.addSession now gid date dur notes)
                = (gs, ss ++ [⟨toString now, gid, date, dur,
                    notes.map String.trim⟩]) := by
              simp [StudyPlanComponent.applyOp,
                StudyPlanComponent.handleAddSession, hgd]
            rw [happ]
            apply ih _
              (by simpa [StudyPlanComponent.goalAddTimes] using hgt) htl
            · intro n hn
              exact hgfresh n
                (by simpa [StudyPlanComponent.goalAddTimes] using hn)
            · intro n hn
              have h1 : toString n ∉ ss.map
                  StudyPlanComponent.StudySession.id :=
                hsfresh n (by
                  simp only [StudyPlanComponent.sessionAddTimes,
                    List.mem_cons]
                  exact Or.inr hn)
              have h2 : toString n ≠ toString now := by
                intro he
                exact hnotin (he ▸ List.mem_map_of_mem _ hn)
              simp [List.map_append, h1, h2]
            · exact hg
            · have hnow : toString now ∉ ss.map
                  StudyPlanComponent.StudySession.id :=
                hsfresh now (by simp [StudyPlanComponent.sessionAddTimes])
              simp [List.map_append, List.nodup_append, hs, hnow]
          · have hid : StudyPlanComponent.applyOp (gs, ss)
                (.addSession now gid date dur notes) = (gs, ss) := by
              simp [StudyPlanComponent.applyOp,
                StudyPlanComponent.handleAddSession, hgd]
            rw [hid]
            exact ih (gs, ss)
              (by simpa [StudyPlanComponent.goalAddTimes] using hgt) htl
              (fun n hn => hgfresh n
                (by simpa [StudyPlanComponent.goalAddTimes] using hn))
              (fun n hn => hsfresh n (by
                simp only [StudyPlanComponent.sessionAddTimes, List.mem_cons]
                exact Or.inr hn))
              hg hs
      | toggleGoal id =>
          have hids : (StudyPlanComponent.toggleGoalComplete gs id).map
              StudyPlanComponent.StudyGoal.id
              = gs.map StudyPlanComponent.StudyGoal.id :=
            map_field_of_preserved _ _
              (fun g => by by_cases h : g.id = id <;> simp [h]) gs
          refine ih _
            (by simpa [StudyPlanComponent.goalAddTimes] using hgt)
            (by simpa [StudyPlanComponent.sessionAddTimes] using hst)
            ?_ ?_ ?_ hs
          · intro n hn
            show toString n ∉ (StudyPlanComponent.toggleGoalComplete gs id).map
              StudyPlanComponent.StudyGoal.id
            rw [hids]
            exact hgfresh n
              (by simpa [StudyPlanComponent.goalAddTimes] using hn)
          · intro n hn
            exact hsfresh n
              (by simpa [StudyPlanComponent.sessionAddTimes] using hn)
          · show ((StudyPlanComponent.toggleGoalComplete gs id).map
              StudyPlanComponent.StudyGoal.id).Nodup
            rw [hids]
            exact hg
      | delGoal id =>
          have hgsub : (StudyPlanComponent.deleteGoal gs ss id).1.Sublist gs :=
            List.filter_sublist gs
          have hssub : (StudyPlanComponent.deleteGoal gs ss id).2.Sublist ss :=
            List.filter_sublist ss
          refine ih _
            (by simpa [StudyPlanComponent.goalAddTimes] using hgt)
            (by simpa [StudyPlanComponent.sessionAddTimes] using hst)
            ?_ ?_ ?_ ?_
          · intro n hn
            exact not_mem_map_of_sublist _ hgsub
              (hgfresh n
                (by simpa [StudyPlanComponent.goalAddTimes] using hn))
          · intro n hn
            exact not_mem_map_of_sublist _ hssub
              (hsfresh n
                (by simpa [StudyPlanComponent.sessionAddTimes] using hn))
          · exact nodup_map_of_sublist _ hgsub hg
          · exact nodup_map_of_sublist _ hssub hs
      | delSession id =>
          have hssub : (StudyPlanComponent.deleteSession ss id).Sublist ss :=
            List.filter_sublist ss
          refine ih _
            (by simpa [StudyPlanComponent.goalAddTimes] using hgt)
            (by simpa [StudyPlanComponent.sessionAddTimes] using hst)
            ?_ ?_ hg ?_
          · intro n hn
            exact hgfresh n
              (by simpa [StudyPlanComponent.goalAddTimes] using hn)
          · intro n hn
            exact not_mem_map_of_sublist _ hssub
              (hsfresh n
                (by simpa [StudyPlanComponent.sessionAddTimes] using hn))
          · exact nodup_map_of_sublist _ hssub hs
      | editGoal eid title d p td =>
          have hids : (StudyPlanComponent.saveEditGoal gs eid title d p td).map
              StudyPlanComponent.StudyGoal.id
              = gs.map StudyPlanComponent.StudyGoal.id := by
            cases eid with
            | none => rfl
            | some e =>
                by_cases htr : title.trim = ""
                · simp [StudyPlanComponent.saveEditGoal, htr]
                · have := map_field_of_preserved
                    (fun goal : StudyPlanComponent.StudyGoal =>
                      if goal.id = e then
                        { goal with title := title.trim, description := d,
                                    priority := p, targetDate := td }
                      else goal)
                    StudyPlanComponent.StudyGoal.id
                    (fun g => by by_cases h : g.id = e <;> simp [h]) gs
                  simpa [StudyPlanComponent.saveEditGoal, htr] using this
          refine ih _
            (by simpa [StudyPlanComponent.goalAddTimes] using hgt)
            (by simpa [StudyPlanComponent.sessionAddTimes] using hst)
            ?_ ?_ ?_ hs
          · intro n hn
            show toString n ∉
              (StudyPlanComponent.saveEditGoal gs eid title d p td).map
                StudyPlanComponent.StudyGoal.id
            rw [hids]
            exact hgfresh n
              (by simpa [StudyPlanComponent.goalAddTimes] using hn)
          · intro n hn
            exact hsfresh n
              (by simpa [StudyPlanComponent.sessionAddTimes] using hn)
          · show ((StudyPlanComponent.saveEditGoal gs eid title d p td).map
              StudyPlanComponent.StudyGoal.id).Nodup
            rw [hids]
            exact hg

set_option maxRecDepth 4000

/-- Evaluation of `Substring.takeWhileAux` on the literal `"a"`. -/
theorem takeWhileAux_a :
    Substring.takeWhileAux "a" "a".endPos Char.isWhitespace { byteIdx := 0 }
      = { byteIdx := 0 } := by
  rw [Substring.takeWhileAux.eq_def]
  norm_num
  intro _ hw
  exact absurd hw (by decide)

/-- Evaluation of `Substring.takeRightWhileAux` on the literal `"a"`. -/
theorem takeRightWhileAux_a :
    Substring.takeRightWhileAux "a" { byteIdx := 0 } Char.isWhitespace
      "a".endPos = "a".endPos := by
  rw [Substring.takeRightWhileAux.eq_def]
  norm_num
  intro _ hw
  exact absurd hw (by decide)

/-- Trimming the literal `"a"` is the identity. -/
theorem trim_a : "a".trim = "a" := by
  show (Substring.toString
    ⟨"a", Substring.takeWhileAux "a" "a".endPos Char.isWhitespace ⟨0⟩,
      Substring.takeRightWhileAux "a"
        (Substring.takeWhileAux "a" "a".endPos Char.isWhitespace ⟨0⟩)
        Char.isWhitespace "a".endPos⟩) = "a"
  rw [takeWhileAux_a, takeRightWhileAux_a]
  decide

/-- Evaluation of `Substring.takeWhileAux` on the literal `"b"`. -/
theorem takeWhileAux_b :
    Substring.takeWhileAux "b" "b".endPos Char.isWhitespace { byteIdx := 0 }
      = { byteIdx := 0 } := by
  rw [Substring.takeWhileAux.eq_def]
  norm_num
  intro _ hw
  exact absurd hw (by decide)

/-- Evaluation of `Substring.takeRightWhileAux` on the literal `"b"`. -/
theorem takeRightWhileAux_b :
    Substring.takeRightWhileAux "b" { byteIdx := 0 } Char.isWhitespace
      "b".endPos = "b".endPos := by
  rw [Substring.takeRightWhileAux.eq_def]
  norm_num
  intro _ hw
  exact absurd hw (by decide)

/-- Trimming the literal `"b"` is the identity. -/
theorem trim_b : "b".trim = "b" := by
  show (Substring.toString
    ⟨"b", Substring.takeWhileAux "b" "b".endPos Char.isWhitespace ⟨0⟩,
      Substring.takeRightWhileAux "b"
        (Substring.takeWhileAux "b" "b".endPos Char.isWhitespace ⟨0⟩)
        Char.isWhitespace "b".endPos⟩) = "b"
  rw [takeWhileAux_b, takeRightWhileAux_b]
  decide

/-- Two same-millisecond todo adds produce the two-element list with the
duplicate id. -/
theorem runOps_same_millis :
    TodoComponent.runOps [.add 1 "a", .add 1 "b"]
      = [{ id := "1", text := "a", completed := false, createdAt := "1" },
         { id := "1", text := "b", completed := false, createdAt := "1" }] := by
  simp [TodoComponent.runOps, TodoComponent.applyOp,
    TodoComponent.handleAddTodo, trim_a, trim_b]
  rfl

/-- C8 counterexample: identifiers come from `Date.now().toString()` with no
uniqueness check, so two adds observing the same millisecond produce two
records with the same id in the same storage key.  Two todo adds at
`Date.now() = 1` yield ids `["1", "1"]`. -/
theorem c8_unique_ids_cex :
    (TodoComponent.runOps [.add 1 "a", .add 1 "b"]).map
        TodoComponent.Todo.id = ["1", "1"] ∧
    ¬ ((TodoComponent.runOps [.add 1 "a", .add 1 "b"]).map
        TodoComponent.Todo.id).Nodup := by
  refine ⟨by rw [runOps_same_millis]; rfl, ?_⟩
  rw [runOps_same_millis]
  decide

/-- C8 amended: in every state reachable by add/toggle/delete/edit
operations, no two records within the same storage key share an id,
provided each add operation observes a `Date.now` value whose decimal
string differs from every other add's in that key (the code itself does
not enforce this: same-millisecond adds violate it, see the
counterexample). -/
theorem c8_ids_unique_of_fresh_times :
    (∀ ops : List TodoComponent.Op,
      ((TodoComponent.addTimes ops).map (fun n : Nat => toString n)).Nodup →
      ((TodoComponent.runOps ops).map TodoComponent.Todo.id).Nodup) ∧
    (∀ ops : List StudyPlanComponent.Op,
      ((StudyPlanComponent.goalAddTimes ops).map
        (fun n : Nat => toString n)).Nodup →
      ((StudyPlanComponent.sessionAddTimes ops).map
        (fun n : Nat => toString n)).Nodup →
      (((StudyPlanComponent.runOps ops).1.map
          StudyPlanComponent.StudyGoal.id).Nodup ∧
       ((StudyPlanComponent.runOps ops).2.map
          StudyPlanComponent.StudySession.id).Nodup)) ∧
    (∀ ops : List FlashcardComponent.Op,
      ((FlashcardComponent.addTimes ops).map
        (fun n : Nat => toString n)).Nodup →
      ((FlashcardComponent.runOps ops).map
        FlashcardComponent.Flashcard.id).Nodup) := by
  refine ⟨?_, ?_, ?_⟩
  · intro ops h
    exact todo_ids_nodup ops [] h (by simp) (by simp)
  · intro ops hg hs
    exact plan_ids_nodup ops ([], []) hg hs (by simp) (by simp)
      (by simp) (by simp)
  · intro ops h
    exact card_ids_nodup ops [] h (by simp) (by simp)

/-- Witness for the amended C8 at concrete operation sequences with
distinct add timestamps. -/
theorem c8_ids_unique_of_fresh_times_witness :
    (((TodoComponent.runOps
        [.add 1 "a", .add 2 "b", .toggle "1", .del "2"]).map
      TodoComponent.Todo.id).Nodup) ∧
    (((StudyPlanComponent.runOps
        [.addGoal 1 "g" none none .medium,
         .addSession 2 "1" "d" 30 none,
         .addGoal 3 "h" none none .low]).1.map
      StudyPlanComponent.StudyGoal.id).Nodup) ∧
    (((FlashcardComponent.runOps
        [.addCard 1 none "q" "a", .addCard 2 none "r" "b"]).map
      FlashcardComponent.Flashcard.id).Nodup) :=
  ⟨c8_ids_unique_of_fresh_times.1
      [.add 1 "a", .add 2 "b", .toggle "1", .del "2"] (by decide),
   (c8_ids_unique_of_fresh_times.2.1
      [.addGoal 1 "g" none none .medium,
       .addSession 2 "1" "d" 30 none,
       .addGoal 3 "h" none none .low] (by decide) (by decide)).1,
   c8_ids_unique_of_fresh_times.2.2
      [.addCard 1 none "q" "a", .addCard 2 none "r" "b"] (by decide)⟩
